import Mathlib

/-!
Verification of the filter-and-aggregate pipeline of the Nautilus maritime
incident dashboard (src/app.py), as a shallow embedding in Lean 4.

The record collection is a list of incident records; the four sidebar
multiselects become four selection lists; pandas boolean `isin` filtering,
`groupby`, `value_counts`, `nlargest`, `pivot_table` counting and the KPI
sums are translated field by field.  Null cells (pandas NaN) are `Option`
values; pandas aggregation conventions (nulls never match `isin`, nulls are
dropped by group keys and counts, `fillna(0)` before sums) are made explicit.
-/

namespace Nautilus

/-- One incident record, after `load_data` has parsed the CSV row: the
derived calendar fields and the raw categorical / numeric cells.  Any cell
may be null (pandas NaN), hence `Option`.  Coordinates are decimal values in
the source file, embedded as rationals (no arithmetic is ever done on them;
the views only test them for nullness or carry them through). -/
structure Record where
  year : Option Int
  month : Option Int
  day : Option Int
  country : Option String
  vessel_Type : Option String
  incident_Type : Option String
  latitude : Option Rat
  longitude : Option Rat
  casualties : Option Nat
  cargo_Loss : Option String
deriving DecidableEq, Repr

/-- Line 24 of app.py: `Series.map` under a two-entry dict sends the exact string
Yes to 1, the exact string No to 0, and every other cell (any other string,
or NaN) to NaN. -/
def cargoLossFlag : Option String → Option Nat
  | some s => if s = "Yes" then some 1 else if s = "No" then some 0 else none
  | none => none

/-- The derived `Cargo_Loss_Flag` column of a record. -/
def Record.cargoFlag (r : Record) : Option Nat :=
  cargoLossFlag r.cargo_Loss

/-- The four sidebar multiselect lists (lines 33-36): years, countries,
vessel types, incident types.  An empty list means no restriction. -/
structure Selection where
  years : List Int
  countries : List String
  vessels : List String
  incidents : List String
deriving DecidableEq, Repr

/-- pandas `Series.isin`: a null cell never matches; a non-null cell matches
iff its value is a member of the given list. -/
def optIsin {α : Type} [DecidableEq α] (v : Option α) (xs : List α) : Bool :=
  match v with
  | none => false
  | some a => xs.contains a

/-- Lines 38-42 of app.py: starting from the full collection, each of the
four dimensions whose selection list is non-empty (Python truthiness of the
list) keeps only the rows whose cell is in the list. -/
def applyFilters (recs : List Record) (s : Selection) : List Record :=
  let f1 := if s.years.isEmpty then recs else
    recs.filter (fun r => optIsin r.year s.years)
  let f2 := if s.countries.isEmpty then f1 else
    f1.filter (fun r => optIsin r.country s.countries)
  let f3 := if s.vessels.isEmpty then f2 else
    f2.filter (fun r => optIsin r.vessel_Type s.vessels)
  if s.incidents.isEmpty then f3 else
    f3.filter (fun r => optIsin r.incident_Type s.incidents)

/-- A record passes one filter dimension iff the selection list of that dimension
is empty (no restriction) or the value of the cell is a member of the list. -/
def dimMatch {α : Type} [DecidableEq α] (sel : List α) (v : Option α) : Bool :=
  sel.isEmpty || optIsin v sel

/-- A record passes the whole selection iff it passes all four dimensions. -/
def selMatch (s : Selection) (r : Record) : Bool :=
  dimMatch s.years r.year && dimMatch s.countries r.country &&
    dimMatch s.vessels r.vessel_Type && dimMatch s.incidents r.incident_Type

/-- KPI metric, line 50: `len(filtered)`. -/
def totalIncidents (subset : List Record) : Nat := subset.length

/-- KPI metric, line 51: `filtered["Casualties"].fillna(0).sum()` — null
casualty cells contribute 0. -/
def totalCasualties (subset : List Record) : Nat :=
  (subset.map (fun r => r.casualties.getD 0)).sum

/-- KPI metric, line 52: `filtered["Cargo_Loss_Flag"].fillna(0).sum()` — a
null flag contributes 0. -/
def cargoLossEvents (subset : List Record) : Nat :=
  (subset.map (fun r => r.cargoFlag.getD 0)).sum

/-- KPI metric, line 53: `filtered["Country"].nunique()` — the number of
distinct non-null country values. -/
def countriesInvolved (subset : List Record) : Nat :=
  (subset.filterMap (fun r => r.country)).dedup.length

/-- pandas `Series.unique`: the distinct values in order of first
occurrence. -/
def pdUnique {α : Type} [DecidableEq α] (l : List α) : List α :=
  l.foldl (fun acc a => if a ∈ acc then acc else acc ++ [a]) []

/-- Calendar heatmap cell, line 66: the pivot table counts the non-null
`Incident_Type` cells among the rows of a given (Month, Year) pair. -/
def calendarCount (subset : List Record) (m y : Int) : Nat :=
  (subset.filter
    (fun r => r.month == some m && r.year == some y && r.incident_Type.isSome)).length

/-- The (Month, Year) pairs the pivot table indexes: rows with a null month
or year are dropped from the group keys. -/
def calendarKeys (subset : List Record) : List (Int × Int) :=
  pdUnique (subset.filterMap (fun r =>
    match r.month, r.year with
    | some m, some y => some (m, y)
    | _, _ => none))

/-- Calendar heatmap projection: each observed (Month, Year) key with its
incident count. -/
def calendarCounts (subset : List Record) : List ((Int × Int) × Nat) :=
  (calendarKeys subset).map (fun p => (p, calendarCount subset p.1 p.2))

/-- Animated-timeline projection, lines 77-85: `px.scatter` receives the
whole working subset with columns Longitude (x), Latitude (y), Year
(animation frame), Incident_Type (group/colour), Casualties (size) and
Country (hover name); no row is removed before the hand-off. -/
def geoPoints (subset : List Record) :
    List (Option Rat × Option Rat × Option Int × Option String × Option Nat × Option String) :=
  subset.map (fun r =>
    (r.longitude, r.latitude, r.year, r.incident_Type, r.casualties, r.country))

/-- The (Incident_Type, Vessel_Type) key of a row, when both are non-null;
`groupby` drops rows whose key contains a null. -/
def categoryPairs (subset : List Record) : List (String × String) :=
  subset.filterMap (fun r =>
    match r.incident_Type, r.vessel_Type with
    | some i, some v => some (i, v)
    | _, _ => none)

/-- Lexicographic order on the (Incident_Type, Vessel_Type) keys, the order
`groupby` sorts its result by. -/
def pairLE (p q : String × String) : Prop :=
  p.1 < q.1 ∨ (p.1 = q.1 ∧ p.2 ≤ q.2)

instance : DecidableRel pairLE := fun p q => by
  unfold pairLE; infer_instance

/-- Line 97: `filtered.groupby(["Incident_Type", "Vessel_Type"]).size()` —
one row per distinct non-null key pair (sorted by key), carrying the number
of subset rows with that pair. -/
def sankey_data (subset : List Record) : List ((String × String) × Nat) :=
  (List.insertionSort pairLE (pdUnique (categoryPairs subset))).map
    (fun p => (p, (categoryPairs subset).count p))

/-- Line 94: `list(filtered["Incident_Type"].unique()) +
list(filtered["Vessel_Type"].unique())` — null cells included, first
occurrence order within each column. -/
def source_labels (subset : List Record) : List (Option String) :=
  pdUnique (subset.map (fun r => r.incident_Type)) ++
    pdUnique (subset.map (fun r => r.vessel_Type))

/-- Walk the enumerated label list, remembering the position of the most
recent occurrence of the sought label (the dict-comprehension insertion
order: a later duplicate key overwrites an earlier one). -/
def sdAux (a : Option String) : Nat → List (Option String) → Option Nat → Option Nat
  | _, [], acc => acc
  | i, b :: t, acc => sdAux a (i + 1) t (if b = a then some i else acc)

/-- Line 95 builds the node dict by a comprehension enumerating
`source_labels`: the dict maps a label to the position of its last
occurrence in the label list; lookup of an absent label is null. -/
def source_dict (labels : List (Option String)) (a : Option String) : Option Nat :=
  sdAux a 0 labels none

/-- Lines 104-108: each `sankey_data` row becomes one link, its incident and
vessel labels mapped through `source_dict` for the source and target node
indices. -/
def sankeyLinks (subset : List Record) : List (Option Nat × Option Nat × Nat) :=
  (sankey_data subset).map (fun pc =>
    (source_dict (source_labels subset) (some pc.1.1),
     source_dict (source_labels subset) (some pc.1.2), pc.2))

/-- pandas `value_counts` on the Country column: one (value, count) pair per
distinct non-null country, counts of all its rows; the underlying hash table
lists values in first-occurrence order before sorting. -/
def countryCount (subset : List Record) (c : String) : Nat :=
  (subset.filter (fun r => r.country == some c)).length

/-- The (country, count) table in first-occurrence order, before sorting. -/
def valueCounts (subset : List Record) : List (String × Nat) :=
  (pdUnique (subset.filterMap (fun r => r.country))).map
    (fun c => (c, countryCount subset c))

/-- Insert a pair into a count-descending list, after every pair of count
greater than or equal to its own (so equal counts keep their existing order). -/
def insertByCount (a : String × Nat) : List (String × Nat) → List (String × Nat)
  | [] => [a]
  | b :: l => if b.2 < a.2 then a :: b :: l else b :: insertByCount a l

/-- Stable sort of the (country, count) table by descending count:
`value_counts` orders by count descending, ties in first-occurrence order
(which `nlargest(n)` with its default keep-first policy preserves). -/
def sortByCountDesc (l : List (String × Nat)) : List (String × Nat) :=
  l.foldl (fun acc a => insertByCount a acc) []

/-- Line 118: `filtered["Country"].value_counts().nlargest(5).index` —
the first n countries of the count-descending table. -/
def topCountries (subset : List Record) (n : Nat) : List String :=
  ((sortByCountDesc (valueCounts subset)).take n).map (fun p => p.1)

/-- The rows of the subset whose country equals the given one (a `groupby`
group; the key is never null because null keys are dropped). -/
def countryGroup (subset : List Record) (c : String) : List Record :=
  subset.filter (fun r => r.country == some c)

/-- One aggregated row of the radar table, lines 119-123: sum of Casualties
(nulls skipped, i.e. 0), sum of Cargo_Loss_Flag (likewise) and the `count`
aggregate of Incident_Type, which counts only non-null cells. -/
def groupRow (subset : List Record) (c : String) : String × Nat × Nat × Nat :=
  (c, totalCasualties (countryGroup subset c), cargoLossEvents (countryGroup subset c),
    ((countryGroup subset c).filter (fun r => r.incident_Type.isSome)).length)

/-- Lines 118-123: restrict the subset to the top-5 countries, group by
country (group keys sorted ascending, pandas `groupby` default) and
aggregate each group. -/
def radar_data (subset : List Record) (n : Nat) : List (String × Nat × Nat × Nat) :=
  (List.insertionSort (fun a b => a ≤ b)
      (pdUnique ((subset.filter
        (fun r => optIsin r.country (topCountries subset n))).filterMap
          (fun r => r.country)))).map
    (groupRow (subset.filter (fun r => optIsin r.country (topCountries subset n))))

theorem mem_pdUnique_aux {α : Type} [DecidableEq α] (l acc : List α) (x : α) :
    x ∈ l.foldl (fun acc a => if a ∈ acc then acc else acc ++ [a]) acc ↔
      x ∈ acc ∨ x ∈ l := by
  induction l generalizing acc with
  | nil => simp
  | cons a t ih =>
    rw [List.foldl_cons]
    by_cases ha : a ∈ acc
    · rw [if_pos ha, ih]
      simp only [List.mem_cons]
      constructor
      · rintro (h | h) <;> tauto
      · rintro (h | rfl | h)
        · tauto
        · exact Or.inl ha
        · tauto
    · rw [if_neg ha, ih]
      simp only [List.mem_append, List.mem_cons, List.mem_singleton]
      tauto

theorem mem_pdUnique {α : Type} [DecidableEq α] (l : List α) (x : α) :
    x ∈ pdUnique l ↔ x ∈ l := by
  simpa using mem_pdUnique_aux l [] x

theorem nodup_pdUnique_aux {α : Type} [DecidableEq α] (l acc : List α)
    (h : acc.Nodup) :
    (l.foldl (fun acc a => if a ∈ acc then acc else acc ++ [a]) acc).Nodup := by
  induction l generalizing acc with
  | nil => simpa using h
  | cons a t ih =>
    rw [List.foldl_cons]
    by_cases ha : a ∈ acc
    · rw [if_pos ha]; exact ih acc h
    · rw [if_neg ha]
      refine ih (acc ++ [a]) ?_
      rw [List.nodup_append]
      exact ⟨h, List.nodup_singleton a,
        fun x hx hxa => ha ((List.mem_singleton.mp hxa) ▸ hx)⟩

theorem nodup_pdUnique {α : Type} [DecidableEq α] (l : List α) :
    (pdUnique l).Nodup :=
  nodup_pdUnique_aux l [] List.nodup_nil

theorem applyFilters_eq_filter (recs : List Record) (s : Selection) :
    applyFilters recs s = recs.filter (selMatch s) := by
  unfold applyFilters selMatch dimMatch
  cases hy : s.years.isEmpty <;> cases hc : s.countries.isEmpty <;>
    cases hv : s.vessels.isEmpty <;> cases hi : s.incidents.isEmpty <;>
      simp [hy, hc, hv, hi, List.filter_filter, List.filter_eq_self] <;>
        exact List.filter_congr (fun r _ => by
          simp [Bool.and_comm, Bool.and_assoc, Bool.and_left_comm])

/-- A fully populated demonstration record (USA collision). -/
def rUSA : Record :=
  ⟨some 2020, some 5, some 1, some "USA", some "Cargo Ship", some "Collision",
    some 10, some 20, some 2, some "Yes"⟩

/-- A demonstration record with a null country and null coordinates. -/
def rNoCountry : Record :=
  ⟨some 2020, some 6, some 2, none, some "Tanker", some "Grounding",
    none, none, some 1, some "No"⟩

/-- A two-record demonstration collection. -/
def demoRecs : List Record := [rUSA, rNoCountry]

/-- A demonstration selection: only the country dimension is active. -/
def demoSel : Selection := ⟨[], ["USA"], [], []⟩

/-- C1: the Working Subset of lines 38-42 contains exactly the records of
the collection that, on each of the four dimensions, either face an empty
selection list (no restriction) or hold a non-null value that is a member of
the list (dimensions compose by AND); hence its size is at most that
of the collection, and a record with a null cell in an actively filtered
dimension is never retained. -/
theorem filter_engine_spec (recs : List Record) (s : Selection) :
    (∀ r : Record, r ∈ applyFilters recs s ↔ r ∈ recs ∧
      (s.years = [] ∨ optIsin r.year s.years = true) ∧
      (s.countries = [] ∨ optIsin r.country s.countries = true) ∧
      (s.vessels = [] ∨ optIsin r.vessel_Type s.vessels = true) ∧
      (s.incidents = [] ∨ optIsin r.incident_Type s.incidents = true)) ∧
    (applyFilters recs s).length ≤ recs.length ∧
    (∀ r ∈ applyFilters recs s,
      (s.years ≠ [] → r.year ≠ none) ∧
      (s.countries ≠ [] → r.country ≠ none) ∧
      (s.vessels ≠ [] → r.vessel_Type ≠ none) ∧
      (s.incidents ≠ [] → r.incident_Type ≠ none)) := by
  have hmem : ∀ r : Record, r ∈ applyFilters recs s ↔ r ∈ recs ∧
      (s.years = [] ∨ optIsin r.year s.years = true) ∧
      (s.countries = [] ∨ optIsin r.country s.countries = true) ∧
      (s.vessels = [] ∨ optIsin r.vessel_Type s.vessels = true) ∧
      (s.incidents = [] ∨ optIsin r.incident_Type s.incidents = true) := by
    intro r
    rw [applyFilters_eq_filter, List.mem_filter]
    simp [selMatch, dimMatch, List.isEmpty_iff, and_assoc]
  refine ⟨hmem, ?_, ?_⟩
  · rw [applyFilters_eq_filter]
    exact List.length_filter_le _ _
  · intro r hr
    obtain ⟨-, hy, hc, hv, hi⟩ := (hmem r).mp hr
    refine ⟨?_, ?_, ?_, ?_⟩
    · intro hne
      rcases hy with h | h
      · exact absurd h hne
      · intro h0; rw [h0] at h; exact Bool.false_ne_true h
    · intro hne
      rcases hc with h | h
      · exact absurd h hne
      · intro h0; rw [h0] at h; exact Bool.false_ne_true h
    · intro hne
      rcases hv with h | h
      · exact absurd h hne
      · intro h0; rw [h0] at h; exact Bool.false_ne_true h
    · intro hne
      rcases hi with h | h
      · exact absurd h hne
      · intro h0; rw [h0] at h; exact Bool.false_ne_true h

/-- Witness for C1 on a concrete collection and selection: the USA record is
retained, and the record with a null country cannot be in the subset while a
country filter is active. -/
theorem filter_engine_spec_witness :
    rUSA ∈ applyFilters demoRecs demoSel ∧ rNoCountry ∉ applyFilters demoRecs demoSel := by
  have h := filter_engine_spec demoRecs demoSel
  constructor
  · exact (h.1 rUSA).mpr (by decide)
  · intro hmem
    exact ((h.2.2 rNoCountry hmem).2.1 (by decide)) (by decide)

/-- C2: when all four selection lists are empty the filter engine is the
identity — the Working Subset is the full collection. -/
theorem empty_selection_identity (recs : List Record) (s : Selection)
    (hy : s.years = []) (hc : s.countries = []) (hv : s.vessels = [])
    (hi : s.incidents = []) :
    applyFilters recs s = recs := by
  simp [applyFilters, hy, hc, hv, hi]

/-- Witness for C2: the all-empty selection keeps both demonstration
records. -/
theorem empty_selection_identity_witness :
    applyFilters demoRecs (Selection.mk [] [] [] []) = demoRecs :=
  empty_selection_identity demoRecs (Selection.mk [] [] [] []) rfl rfl rfl rfl

/-- C3: the derived flag of line 24 is 1 exactly on the raw value Yes, 0
exactly on the raw value No, null on every other raw value (null included),
and a null flag contributes 0 to the downstream sums (which apply
`fillna(0)`), as the `cargoLossEvents` unfolding shows. -/
theorem cargo_loss_flag_spec (r : Record) :
    (r.cargoFlag = some 1 ↔ r.cargo_Loss = some "Yes") ∧
    (r.cargoFlag = some 0 ↔ r.cargo_Loss = some "No") ∧
    (r.cargoFlag = none ↔ r.cargo_Loss ≠ some "Yes" ∧ r.cargo_Loss ≠ some "No") ∧
    (∀ rest : List Record, r.cargoFlag = none →
      cargoLossEvents (r :: rest) = cargoLossEvents rest) := by
  refine ⟨?_, ?_, ?_, ?_⟩
  · cases h : r.cargo_Loss with
    | none => simp [Record.cargoFlag, cargoLossFlag, h]
    | some s =>
      simp only [Record.cargoFlag, cargoLossFlag, h]
      split_ifs with h1 h2 <;> simp_all
  · cases h : r.cargo_Loss with
    | none => simp [Record.cargoFlag, cargoLossFlag, h]
    | some s =>
      simp only [Record.cargoFlag, cargoLossFlag, h]
      split_ifs with h1 h2 <;> simp_all
  · cases h : r.cargo_Loss with
    | none => simp [Record.cargoFlag, cargoLossFlag, h]
    | some s =>
      simp only [Record.cargoFlag, cargoLossFlag, h]
      split_ifs with h1 h2 <;> simp_all
  · intro rest hnone
    simp [cargoLossEvents, hnone]

/-- Witness for C3: the Yes record flags 1, the No record flags 0, and a
record with a null raw value has a null flag contributing nothing to the
cargo-loss KPI. -/
theorem cargo_loss_flag_spec_witness :
    (rUSA.cargoFlag = some 1 ↔ rUSA.cargo_Loss = some "Yes") ∧
    cargoLossEvents
        [⟨none, none, none, none, none, none, none, none, none, none⟩] = 0 := by
  constructor
  · exact (cargo_loss_flag_spec rUSA).1
  · have h := (cargo_loss_flag_spec
      ⟨none, none, none, none, none, none, none, none, none, none⟩).2.2.2 [] (by decide)
    simpa [cargoLossEvents] using h

/-- First scenario record: USA collision, 2 casualties, cargo lost. -/
def sUSA1 : Record :=
  ⟨some 2021, some 1, some 1, some "USA", none, some "Collision",
    none, none, some 2, some "Yes"⟩

/-- Second scenario record: USA grounding, no casualties, no cargo loss. -/
def sUSA2 : Record :=
  ⟨some 2021, some 2, some 1, some "USA", none, some "Grounding",
    none, none, some 0, some "No"⟩

/-- Third scenario record: UK collision, 5 casualties, cargo lost. -/
def sUK : Record :=
  ⟨some 2021, some 3, some 1, some "UK", none, some "Collision",
    none, none, some 5, some "Yes"⟩

/-- The three-record scenario subset of the specification. -/
def scenarioRecs : List Record := [sUSA1, sUSA2, sUK]

/-- C9: the four KPI scalars of lines 49-53 are the subset size, the
null-as-0 casualty sum, the null-as-0 cargo-flag sum and the number of
distinct non-null countries (stated via the finite set of values); on the
three-record scenario subset they evaluate to 3, 7, 2 and 2. -/
theorem kpi_spec (subset : List Record) :
    totalIncidents subset = subset.length ∧
    totalCasualties subset = (subset.map (fun r => r.casualties.getD 0)).sum ∧
    cargoLossEvents subset = (subset.map (fun r => r.cargoFlag.getD 0)).sum ∧
    countriesInvolved subset = (subset.filterMap (fun r => r.country)).toFinset.card ∧
    (totalIncidents scenarioRecs = 3 ∧ totalCasualties scenarioRecs = 7 ∧
      cargoLossEvents scenarioRecs = 2 ∧ countriesInvolved scenarioRecs = 2) := by
  refine ⟨rfl, rfl, rfl, ?_, by decide⟩
  rw [countriesInvolved, List.card_toFinset]

/-- C8: on the empty Working Subset every view is the explicitly empty
projection and every KPI is 0; the embedded operations are total functions,
so none can raise. -/
theorem empty_subset_views (s : Selection) (n : Nat) :
    applyFilters [] s = [] ∧
    calendarCounts [] = [] ∧
    geoPoints [] = [] ∧
    sankey_data [] = [] ∧
    radar_data [] n = [] ∧
    totalIncidents [] = 0 ∧ totalCasualties [] = 0 ∧
    cargoLossEvents [] = 0 ∧ countriesInvolved [] = 0 := by
  refine ⟨?_, rfl, rfl, rfl, ?_, rfl, rfl, rfl, rfl⟩
  · rw [applyFilters_eq_filter]; rfl
  · simp [radar_data, topCountries, valueCounts, pdUnique, sortByCountDesc,
      List.take_nil]

theorem count_eq_one_of_nodup_mem {α : Type} [BEq α] [LawfulBEq α]
    {l : List α} {a : α} (d : l.Nodup) (h : a ∈ l) : l.count a = 1 := by
  induction l with
  | nil => cases h
  | cons b t ih =>
    rw [List.count_cons]
    rcases List.mem_cons.mp h with rfl | ht
    · rw [List.count_eq_zero.mpr (List.nodup_cons.mp d).1,
        if_pos (beq_self_eq_true a)]
    · have hba : ¬ (b == a) = true := by
        intro hba
        exact (List.nodup_cons.mp d).1 (by rw [eq_of_beq hba]; exact ht)
      rw [if_neg hba, Nat.add_zero]
      exact ih (List.nodup_cons.mp d).2 ht

theorem count_filter_of_pos {α : Type} [BEq α] [LawfulBEq α] (p : α → Bool)
    (y : α) (hy : p y = true) :
    ∀ l : List α, (l.filter p).count y = l.count y := by
  intro l
  induction l with
  | nil => rfl
  | cons b t ih =>
    rw [List.filter_cons]
    by_cases hb : p b = true
    · rw [if_pos hb, List.count_cons, List.count_cons, ih]
    · have hby : ¬ (b == y) = true := by
        intro h
        exact hb (by rw [eq_of_beq h]; exact hy)
      rw [if_neg hb, ih, List.count_cons, if_neg hby, Nat.add_zero]

theorem length_eq_count_add_filter {α : Type} [BEq α] [LawfulBEq α] (x : α) :
    ∀ l : List α,
      l.length = l.count x + (l.filter (fun b => !(b == x))).length := by
  intro l
  induction l with
  | nil => rfl
  | cons b t ih =>
    by_cases hb : b = x
    · subst hb
      have hc : List.count b (b :: t) = List.count b t + 1 := by
        rw [List.count_cons, if_pos (beq_self_eq_true b)]
      have hf : (b :: t).filter (fun c => !(c == b)) = t.filter (fun c => !(c == b)) := by
        rw [List.filter_cons, if_neg (by simp)]
      rw [List.length_cons, hc, hf]
      omega
    · have h1 : List.count x (b :: t) = List.count x t := by
        rw [List.count_cons, if_neg (fun h => hb (eq_of_beq h)), Nat.add_zero]
      have h2 : (b :: t).filter (fun c => !(c == x))
          = b :: t.filter (fun c => !(c == x)) := by
        rw [List.filter_cons,
          if_pos (by show (!(b == x)) = true; rw [beq_eq_false_iff_ne.mpr hb]; rfl)]
      rw [List.length_cons, h1, h2, List.length_cons]
      omega

theorem sum_counts_of_cover {α : Type} [BEq α] [LawfulBEq α] :
    ∀ u : List α, u.Nodup → ∀ l : List α, (∀ x, x ∈ u ↔ x ∈ l) →
      (u.map (fun x => l.count x)).sum = l.length := by
  intro u
  induction u with
  | nil =>
    intro _ l hcov
    have hnil : l = [] := List.eq_nil_iff_forall_not_mem.mpr
      (fun x hx => by simpa using (hcov x).mpr hx)
    rw [hnil]; rfl
  | cons x u' ih =>
    intro hnd l hcov
    rw [List.map_cons, List.sum_cons]
    have hcong : u'.map (fun y => l.count y)
        = u'.map (fun y => (l.filter (fun b => !(b == x))).count y) := by
      apply List.map_congr_left
      intro y hy
      have hyx : y ≠ x := fun h => (List.nodup_cons.mp hnd).1 (h ▸ hy)
      exact (count_filter_of_pos _ y
        (by show (!(y == x)) = true; rw [beq_eq_false_iff_ne.mpr hyx]; rfl) l).symm
    rw [hcong, ih (List.nodup_cons.mp hnd).2 (l.filter (fun b => !(b == x))) ?_]
    · exact (length_eq_count_add_filter x l).symm
    · intro z
      constructor
      · intro hz
        have hzl : z ∈ l := (hcov z).mp (List.mem_cons_of_mem x hz)
        have hzx : z ≠ x := fun h => (List.nodup_cons.mp hnd).1 (h ▸ hz)
        exact List.mem_filter.mpr ⟨hzl,
          by show (!(z == x)) = true; rw [beq_eq_false_iff_ne.mpr hzx]; rfl⟩
      · intro hz
        obtain ⟨hzl, hzx⟩ := List.mem_filter.mp hz
        rcases List.mem_cons.mp ((hcov z).mpr hzl) with rfl | hz'
        · simp at hzx
        · exact hz'

theorem categoryPairs_length_eq (subset : List Record)
    (h : ∀ r ∈ subset, r.incident_Type.isSome = true ∧ r.vessel_Type.isSome = true) :
    (categoryPairs subset).length = subset.length := by
  induction subset with
  | nil => rfl
  | cons r t ih =>
    obtain ⟨hi, hv⟩ := h r (List.mem_cons_self r t)
    obtain ⟨i, hi'⟩ := Option.isSome_iff_exists.mp hi
    obtain ⟨v, hv'⟩ := Option.isSome_iff_exists.mp hv
    have hstep : categoryPairs (r :: t) = (i, v) :: categoryPairs t := by
      simp [categoryPairs, List.filterMap_cons, hi', hv']
    rw [hstep, List.length_cons, List.length_cons,
      ih (fun r' hr' => h r' (List.mem_cons_of_mem _ hr'))]

/-- A record whose vessel type is null: `groupby` drops it from the Sankey
table. -/
def rNoVessel : Record :=
  ⟨some 2021, some 4, some 1, some "USA", none, some "Collision",
    none, none, some 0, some "Yes"⟩

/-- Counterexample to C4 as stated: on a one-record subset whose vessel type
is null, the Sankey counts sum to 0, not to the subset size 1 — `groupby`
silently drops rows with a null key component. -/
theorem sankey_sum_counterexample :
    ¬ ((sankey_data [rNoVessel]).map (fun pc => pc.2)).sum
        = ([rNoVessel] : List Record).length := by decide

/-- C4 amended: the per-pair Sankey counts sum to the number of records
whose Incident_Type and Vessel_Type are both non-null; when every record of
the subset has both fields non-null this equals the Working Subset size. -/
theorem sankey_sum_spec (subset : List Record) :
    ((sankey_data subset).map (fun pc => pc.2)).sum = (categoryPairs subset).length ∧
    ((∀ r ∈ subset, r.incident_Type.isSome = true ∧ r.vessel_Type.isSome = true) →
      ((sankey_data subset).map (fun pc => pc.2)).sum = subset.length) := by
  have h1 : ((sankey_data subset).map (fun pc => pc.2)).sum
      = (categoryPairs subset).length := by
    unfold sankey_data
    rw [List.map_map]
    have hcomp : ((fun pc : (String × String) × Nat => pc.2) ∘
        (fun p => (p, (categoryPairs subset).count p)))
        = fun p => (categoryPairs subset).count p := rfl
    rw [hcomp]
    have hperm : List.Perm
        (List.insertionSort pairLE (pdUnique (categoryPairs subset)))
        (pdUnique (categoryPairs subset)) :=
      List.perm_insertionSort pairLE _
    refine sum_counts_of_cover _ (hperm.nodup_iff.mpr (nodup_pdUnique _)) _ ?_
    intro p
    rw [hperm.mem_iff, mem_pdUnique]
  exact ⟨h1, fun h => by rw [h1, categoryPairs_length_eq subset h]⟩

/-- A two-record subset with full Sankey keys. -/
def demoSan : List Record :=
  [⟨some 2020, some 2, some 1, some "X", some "Tanker", some "Collision",
      none, none, some 0, some "Yes"⟩,
   ⟨some 2020, some 3, some 1, some "Y", some "Ferry", some "Fire",
      none, none, some 1, some "No"⟩]

/-- Witness for the amended C4: on a concrete subset where every record has
both key fields, the Sankey counts sum to the subset size. -/
theorem sankey_sum_spec_witness :
    ((sankey_data demoSan).map (fun pc => pc.2)).sum = demoSan.length :=
  (sankey_sum_spec demoSan).2 (by decide)

/-- A record with a null latitude but a plottable date and incident type. -/
def rNullLat : Record :=
  ⟨some 2022, some 7, some 3, some "France", some "Ferry", some "Collision",
    none, some 3, some 4, some "No"⟩

/-- Counterexample to C6 as stated: the animated-timeline projection does
not exclude a record whose latitude is null — the whole subset is handed to
the chart, so the projection of a one-record subset with a null latitude
still contains that point. -/
theorem geo_exclusion_counterexample :
    ¬ (∀ p ∈ geoPoints [rNullLat], p.2.1 ≠ (none : Option Rat)) := by decide

/-- C6 amended: the geo-temporal projection retains every record of the
Working Subset, null coordinates included — their omission is left to the
rendering layer; a null-coordinate record still counts in the KPI record
count, and in the calendar counts provided its month, year and incident type
are non-null. -/
theorem geo_passthrough_spec (subset : List Record) (r : Record)
    (hr : r ∈ subset) :
    (geoPoints subset).length = totalIncidents subset ∧
    (r.longitude, r.latitude, r.year, r.incident_Type, r.casualties, r.country)
      ∈ geoPoints subset ∧
    (∀ m y : Int, r.month = some m → r.year = some y →
      r.incident_Type.isSome = true → 0 < calendarCount subset m y) := by
  refine ⟨List.length_map _ _, List.mem_map.mpr ⟨r, hr, rfl⟩, ?_⟩
  intro m y hm hy hi
  exact List.length_pos_of_mem
    (List.mem_filter.mpr ⟨hr, by simp [hm, hy, hi]⟩)

/-- Witness for the amended C6: the point of the null-latitude record is in the
projection of its one-record subset, and that record is counted in the
calendar cell of its month and year. -/
theorem geo_passthrough_spec_witness :
    ((rNullLat.longitude, rNullLat.latitude, rNullLat.year, rNullLat.incident_Type,
        rNullLat.casualties, rNullLat.country) ∈ geoPoints [rNullLat]) ∧
    0 < calendarCount [rNullLat] 7 2022 := by
  have h := geo_passthrough_spec [rNullLat] rNullLat (by decide)
  exact ⟨h.2.1, h.2.2 7 2022 rfl rfl rfl⟩

theorem sdAux_eq_of_not_mem (a : Option String) (t : List (Option String))
    (h : a ∉ t) : ∀ (i : Nat) (acc : Option Nat), sdAux a i t acc = acc := by
  induction t with
  | nil => intro i acc; rfl
  | cons b t' ih =>
    intro i acc
    have hb : ¬ (b = a) := fun hba => h (by rw [← hba]; exact List.mem_cons_self b t')
    simp only [sdAux, if_neg hb]
    exact ih (fun ha => h (List.mem_cons_of_mem _ ha)) _ _

theorem sdAux_isSome_of_mem (a : Option String) (t : List (Option String))
    (h : a ∈ t) : ∀ (i : Nat) (acc : Option Nat), (sdAux a i t acc).isSome = true := by
  induction t with
  | nil => cases h
  | cons b t' ih =>
    intro i acc
    simp only [sdAux]
    by_cases ht : a ∈ t'
    · exact ih ht _ _
    · have hb : b = a := by
        rcases List.mem_cons.mp h with h1 | h1
        · exact h1.symm
        · exact absurd h1 ht
      rw [if_pos hb, sdAux_eq_of_not_mem a t' ht]
      rfl

theorem source_dict_isSome_of_mem (labels : List (Option String))
    (a : Option String) (h : a ∈ labels) : (source_dict labels a).isSome = true :=
  sdAux_isSome_of_mem a labels h 0 none

/-- C10: a string occurring both as an incident type and as a vessel type
appears twice in the label list of line 94, yet the dict of line 95 assigns
it a single node index, so every link using it as a source and every link
using it as a target refers to that same node. -/
theorem sankey_shared_label_single_node (subset : List Record) (x : String)
    (hi : ∃ r ∈ subset, r.incident_Type = some x)
    (hv : ∃ r ∈ subset, r.vessel_Type = some x) :
    (source_labels subset).count (some x) = 2 ∧
    ∃ n : Nat, source_dict (source_labels subset) (some x) = some n ∧
      ∀ pc ∈ sankey_data subset,
        (pc.1.1 = x → source_dict (source_labels subset) (some pc.1.1) = some n) ∧
        (pc.1.2 = x → source_dict (source_labels subset) (some pc.1.2) = some n) := by
  obtain ⟨ri, hri, hrix⟩ := hi
  obtain ⟨rv, hrv, hrvx⟩ := hv
  have hmi : (some x) ∈ pdUnique (subset.map (fun r => r.incident_Type)) :=
    (mem_pdUnique _ _).mpr (List.mem_map.mpr ⟨ri, hri, hrix⟩)
  have hmv : (some x) ∈ pdUnique (subset.map (fun r => r.vessel_Type)) :=
    (mem_pdUnique _ _).mpr (List.mem_map.mpr ⟨rv, hrv, hrvx⟩)
  constructor
  · rw [source_labels, List.count_append,
      count_eq_one_of_nodup_mem (nodup_pdUnique _) hmi,
      count_eq_one_of_nodup_mem (nodup_pdUnique _) hmv]
  · have hsome := source_dict_isSome_of_mem (source_labels subset) (some x)
      (by rw [source_labels]; exact List.mem_append.mpr (Or.inl hmi))
    obtain ⟨n, hn⟩ := Option.isSome_iff_exists.mp hsome
    exact ⟨n, hn, fun pc _ =>
      ⟨fun h1 => by rw [h1]; exact hn, fun h2 => by rw [h2]; exact hn⟩⟩

/-- A subset in which the string Collision is an incident type of one record
and a vessel type of another. -/
def demoShared : List Record :=
  [⟨some 2020, some 1, some 1, some "X", some "Fire", some "Collision",
      none, none, some 0, some "Yes"⟩,
   ⟨some 2020, some 1, some 2, some "Y", some "Collision", some "Explosion",
      none, none, some 1, some "No"⟩]

/-- Witness for C10: in the concrete shared-label subset, Collision labels
two positions of the node list but the dict lookup is a single defined
index. -/
theorem sankey_shared_label_single_node_witness :
    (source_labels demoShared).count (some "Collision") = 2 ∧
    (source_dict (source_labels demoShared) (some "Collision")).isSome = true := by
  obtain ⟨hc, n, hn, -⟩ :=
    sankey_shared_label_single_node demoShared "Collision" (by decide) (by decide)
  exact ⟨hc, by simp [hn]⟩

theorem insertByCount_perm (a : String × Nat) (l : List (String × Nat)) :
    List.Perm (insertByCount a l) (a :: l) := by
  induction l with
  | nil => exact List.Perm.refl _
  | cons b t ih =>
    simp only [insertByCount]
    by_cases hb : b.2 < a.2
    · rw [if_pos hb]
    · rw [if_neg hb]
      exact (List.Perm.cons b ih).trans (List.Perm.swap a b t)

theorem sortByCountDesc_perm_aux :
    ∀ l acc : List (String × Nat),
      List.Perm (l.foldl (fun acc a => insertByCount a acc) acc) (l ++ acc) := by
  intro l
  induction l with
  | nil => intro acc; exact List.Perm.refl _
  | cons a t ih =>
    intro acc
    rw [List.foldl_cons]
    refine (ih (insertByCount a acc)).trans ?_
    refine (List.Perm.append_left t (insertByCount_perm a acc)).trans ?_
    exact List.perm_middle

theorem sortByCountDesc_perm (l : List (String × Nat)) :
    List.Perm (sortByCountDesc l) l := by
  simpa using sortByCountDesc_perm_aux l []

theorem insertByCount_sorted (a : String × Nat) (l : List (String × Nat))
    (h : List.Sorted (fun p q => q.2 ≤ p.2) l) :
    List.Sorted (fun p q => q.2 ≤ p.2) (insertByCount a l) := by
  induction l with
  | nil => simp [insertByCount]
  | cons b t ih =>
    obtain ⟨hb1, hb2⟩ := List.sorted_cons.mp h
    simp only [insertByCount]
    by_cases hb : b.2 < a.2
    · rw [if_pos hb]
      refine List.sorted_cons.mpr ⟨?_, h⟩
      intro c hc
      rcases List.mem_cons.mp hc with rfl | hct
      · exact Nat.le_of_lt hb
      · exact Nat.le_trans (hb1 c hct) (Nat.le_of_lt hb)
    · rw [if_neg hb]
      refine List.sorted_cons.mpr ⟨?_, ih hb2⟩
      intro c hc
      rcases List.mem_cons.mp ((insertByCount_perm a t).mem_iff.mp hc) with rfl | hct
      · exact Nat.le_of_not_lt hb
      · exact hb1 c hct

theorem sortByCountDesc_sorted (l : List (String × Nat)) :
    List.Sorted (fun p q => q.2 ≤ p.2) (sortByCountDesc l) := by
  have aux : ∀ t acc : List (String × Nat),
      List.Sorted (fun p q => q.2 ≤ p.2) acc →
      List.Sorted (fun p q => q.2 ≤ p.2)
        (t.foldl (fun acc a => insertByCount a acc) acc) := by
    intro t
    induction t with
    | nil => intro acc h; exact h
    | cons a t' ih =>
      intro acc h
      rw [List.foldl_cons]
      exact ih _ (insertByCount_sorted a acc h)
  exact aux l [] List.sorted_nil

theorem filter_class_all_lt {k : Nat} {l : List (String × Nat)}
    (h : ∀ p ∈ l, p.2 < k) : l.filter (fun p => p.2 == k) = [] := by
  induction l with
  | nil => rfl
  | cons b t ih =>
    rw [List.filter_cons, if_neg ?_]
    · exact ih (fun p hp => h p (List.mem_cons_of_mem _ hp))
    · intro hb
      exact Nat.lt_irrefl k ((eq_of_beq hb) ▸ h b (List.mem_cons_self b t))

theorem insertByCount_filter_class (a : String × Nat) (k : Nat)
    (l : List (String × Nat)) (hs : List.Sorted (fun p q => q.2 ≤ p.2) l) :
    (insertByCount a l).filter (fun p => p.2 == k)
      = if a.2 = k then l.filter (fun p => p.2 == k) ++ [a]
        else l.filter (fun p => p.2 == k) := by
  induction l with
  | nil =>
    simp only [insertByCount, List.filter_cons, List.filter_nil]
    by_cases hak : a.2 = k
    · rw [if_pos (beq_iff_eq.mpr hak), if_pos hak]; rfl
    · rw [if_neg (fun h => hak (eq_of_beq h)), if_neg hak]
  | cons b t ih =>
    obtain ⟨hb1, hb2⟩ := List.sorted_cons.mp hs
    simp only [insertByCount]
    by_cases hba : b.2 < a.2
    · rw [if_pos hba]
      by_cases hak : a.2 = k
      · have hall : ∀ p ∈ b :: t, p.2 < k := by
          intro p hp
          rcases List.mem_cons.mp hp with rfl | hpt
          · exact hak ▸ hba
          · exact Nat.lt_of_le_of_lt (hb1 p hpt) (hak ▸ hba)
        rw [List.filter_cons, if_pos (beq_iff_eq.mpr hak), if_pos hak,
          filter_class_all_lt hall]
        rfl
      · rw [List.filter_cons, if_neg (fun h => hak (eq_of_beq h)), if_neg hak]
    · rw [if_neg hba, List.filter_cons]
      by_cases hbk : (b.2 == k) = true
      · rw [if_pos hbk, ih hb2, List.filter_cons, if_pos hbk]
        by_cases hak : a.2 = k
        · rw [if_pos hak, if_pos hak]; rfl
        · rw [if_neg hak, if_neg hak]
      · rw [if_neg hbk, ih hb2, List.filter_cons, if_neg hbk]

theorem sortByCountDesc_stable_aux :
    ∀ t acc : List (String × Nat),
      List.Sorted (fun p q => q.2 ≤ p.2) acc → ∀ k : Nat,
      (t.foldl (fun acc a => insertByCount a acc) acc).filter (fun p => p.2 == k)
        = acc.filter (fun p => p.2 == k) ++ t.filter (fun p => p.2 == k) := by
  intro t
  induction t with
  | nil => intro acc _ k; simp
  | cons a t' ih =>
    intro acc hacc k
    rw [List.foldl_cons, ih _ (insertByCount_sorted a acc hacc) k,
      insertByCount_filter_class a k acc hacc, List.filter_cons]
    by_cases hak : a.2 = k
    · rw [if_pos hak, if_pos (beq_iff_eq.mpr hak), List.append_assoc,
        List.singleton_append]
    · rw [if_neg hak, if_neg (fun h => hak (eq_of_beq h))]

/-- Equal-count countries keep their first-encountered relative order
through the descending sort (the stable tie-break). -/
theorem sortByCountDesc_stable (l : List (String × Nat)) (k : Nat) :
    (sortByCountDesc l).filter (fun p => p.2 == k)
      = l.filter (fun p => p.2 == k) := by
  simpa using sortByCountDesc_stable_aux l [] List.sorted_nil k

theorem optIsin_some_iff {α : Type} [DecidableEq α] (a : α) (xs : List α) :
    optIsin (some a) xs = true ↔ a ∈ xs := by
  simp [optIsin]

theorem mem_tops_of_key (subset : List Record) (n : Nat) (c : String)
    (hc : c ∈ pdUnique ((subset.filter
      (fun r => optIsin r.country (topCountries subset n))).filterMap
        (fun r => r.country))) :
    c ∈ topCountries subset n := by
  rw [mem_pdUnique] at hc
  obtain ⟨r, hr, hrc⟩ := List.mem_filterMap.mp hc
  obtain ⟨-, hopt⟩ := List.mem_filter.mp hr
  rw [hrc] at hopt
  exact (optIsin_some_iff c _).mp hopt

theorem countryGroup_filter_tops (subset : List Record) (tops : List String)
    (c : String) (hc : c ∈ tops) :
    countryGroup (subset.filter (fun r => optIsin r.country tops)) c
      = countryGroup subset c := by
  unfold countryGroup
  rw [List.filter_filter]
  apply List.filter_congr
  intro r _
  by_cases h : (r.country == some c) = true
  · rw [h, Bool.true_and, eq_of_beq h]
    exact (optIsin_some_iff c tops).mpr hc
  · rw [Bool.eq_false_iff.mpr h, Bool.false_and]

/-- C5 amended: the radar top-N country summary returns at most n rows; the
rows come back grouped by country in ascending name order (pandas `groupby`
sorting), not in descending count order; the casualty and cargo-loss
fields of each row are the null-as-0 sums over the records of that country,
while its count field counts only the records with a non-null Incident_Type
(not all records of the country); the countries selected are ones whose record count is at
least that of every unselected country, equal counts being ranked stably in
first-encountered order. -/
theorem radar_top_spec (subset : List Record) (n : Nat) :
    (radar_data subset n).length ≤ n ∧
    List.Sorted (fun a b : String => a ≤ b)
      ((radar_data subset n).map (fun row => row.1)) ∧
    (∀ row ∈ radar_data subset n,
      row.1 ∈ topCountries subset n ∧
      row.2.1 = totalCasualties (countryGroup subset row.1) ∧
      row.2.2.1 = cargoLossEvents (countryGroup subset row.1) ∧
      row.2.2.2 = ((countryGroup subset row.1).filter
        (fun r => r.incident_Type.isSome)).length) ∧
    (∀ c ∈ topCountries subset n, ∀ c' : String,
      (∃ r ∈ subset, r.country = some c') → c' ∉ topCountries subset n →
      countryCount subset c' ≤ countryCount subset c) ∧
    (∀ k : Nat, (sortByCountDesc (valueCounts subset)).filter (fun p => p.2 == k)
      = (valueCounts subset).filter (fun p => p.2 == k)) := by
  refine ⟨?_, ?_, ?_, ?_, fun k => sortByCountDesc_stable _ k⟩
  · unfold radar_data
    rw [List.length_map, (List.perm_insertionSort _ _).length_eq]
    have h1 : (pdUnique ((subset.filter
        (fun r => optIsin r.country (topCountries subset n))).filterMap
          (fun r => r.country))).length ≤ (topCountries subset n).length := by
      refine List.Subperm.length_le ((nodup_pdUnique _).subperm ?_)
      intro c hc
      exact mem_tops_of_key subset n c hc
    have h2 : (topCountries subset n).length ≤ n := by
      unfold topCountries
      rw [List.length_map]
      exact List.length_take_le n _
    exact Nat.le_trans h1 h2
  · unfold radar_data
    rw [List.map_map]
    have hcomp : ((fun row : String × Nat × Nat × Nat => row.1) ∘
        groupRow (subset.filter
          (fun r => optIsin r.country (topCountries subset n))))
        = fun c => c := rfl
    rw [hcomp, List.map_id']
    exact List.sorted_insertionSort _ _
  · intro row hrow
    unfold radar_data at hrow
    obtain ⟨c, hck, rfl⟩ := List.mem_map.mp hrow
    have hctops : c ∈ topCountries subset n := mem_tops_of_key subset n c
      ((List.perm_insertionSort _ _).mem_iff.mp hck)
    have hgroup := countryGroup_filter_tops subset (topCountries subset n) c hctops
    refine ⟨hctops, ?_, ?_, ?_⟩ <;> simp only [groupRow] <;> rw [hgroup]
  · intro c hc c' hex hc'
    obtain ⟨p, hptake, hp1⟩ := List.mem_map.mp hc
    have hpvc : p ∈ valueCounts subset :=
      (sortByCountDesc_perm _).mem_iff.mp (List.mem_of_mem_take hptake)
    obtain ⟨c0, hc0, hpeq⟩ := List.mem_map.mp hpvc
    obtain ⟨r', hr', hrc'⟩ := hex
    have hc'mem : c' ∈ pdUnique (subset.filterMap (fun r => r.country)) :=
      (mem_pdUnique _ _).mpr (List.mem_filterMap.mpr ⟨r', hr', hrc'⟩)
    have hqsorted : (c', countryCount subset c') ∈ sortByCountDesc (valueCounts subset) :=
      (sortByCountDesc_perm _).mem_iff.mpr (List.mem_map.mpr ⟨c', hc'mem, rfl⟩)
    rw [← List.take_append_drop n (sortByCountDesc (valueCounts subset))] at hqsorted
    rcases List.mem_append.mp hqsorted with htk | hdr
    · exact absurd (List.mem_map.mpr ⟨_, htk, rfl⟩) hc'
    · have hrel := (sortByCountDesc_sorted
        (valueCounts subset)).rel_of_mem_take_of_mem_drop hptake hdr
      rw [← hpeq] at hp1 hrel
      simp only at hp1 hrel
      rw [← hp1]
      exact hrel

/-- A three-record subset: country B twice (once with a null incident type)
and country A once. -/
def demoC5 : List Record :=
  [⟨some 2020, some 1, some 1, some "B", some "Tanker", some "Collision",
      none, none, some 0, some "No"⟩,
   ⟨some 2020, some 1, some 2, some "B", some "Tanker", none,
      none, none, some 0, some "No"⟩,
   ⟨some 2020, some 1, some 3, some "A", some "Ferry", some "Collision",
      none, none, some 0, some "No"⟩]

theorem radar_demo_keys :
    pdUnique ((demoC5.filter
      (fun r => optIsin r.country (topCountries demoC5 5))).filterMap
        (fun r => r.country)) = ["B", "A"] := by decide

theorem insertionSort_BA :
    List.insertionSort (fun a b : String => a ≤ b) ["B", "A"] = ["A", "B"] := by
  have hBA : ¬ (("B" : String) ≤ "A") := by
    rw [String.le_iff_toList_le]
    decide
  simp [List.insertionSort, List.orderedInsert, hBA]

theorem radar_demo_eval :
    radar_data demoC5 5 = [("A", 0, 0, 1), ("B", 0, 0, 1)] := by
  unfold radar_data
  rw [radar_demo_keys, insertionSort_BA]
  decide

/-- Counterexample to C5 as stated: on the three-record subset, the radar
rows come back as A (1 record) before B (2 records) — country-name order,
not descending record count — and the count field of B is 1, not its direct
record count 2, because its null-incident record is dropped by the `count`
aggregate. -/
theorem radar_claim_counterexample :
    ¬ (List.Sorted (fun a b : String × Nat × Nat × Nat =>
          countryCount demoC5 b.1 ≤ countryCount demoC5 a.1) (radar_data demoC5 5) ∧
       ∀ row ∈ radar_data demoC5 5, row.2.2.2 = countryCount demoC5 row.1) := by
  intro h
  obtain ⟨hsorted, hcount⟩ := h
  rw [radar_demo_eval] at hsorted hcount
  have h2 := hcount ("B", 0, 0, 1) (by decide)
  simp only at h2
  exact absurd h2 (by decide)

/-- Witness for the amended C5: with n = 1 on the same subset there is one
row, and the unselected country A has no more records than the selected
country B. -/
theorem radar_top_spec_witness :
    (radar_data demoC5 1).length ≤ 1 ∧
    countryCount demoC5 "A" ≤ countryCount demoC5 "B" := by
  obtain ⟨h1, -, -, h4, -⟩ := radar_top_spec demoC5 1
  exact ⟨h1, h4 "B" (by decide) "A" (by decide) (by decide)⟩

/-- Modelled from the spec: whitespace characters that column-name trimming
removes (the second app variant of the repository, which performs the
normalization, is not under src/; §4.1 and §6 of the spec describe it). -/
def isSpaceChar (c : Char) : Bool :=
  c = ' ' || c = '\t' || c = '\n' || c = '\r'

/-- Modelled from the spec: trim surrounding whitespace from a column name
(names embedded as character lists). -/
def trimName (l : List Char) : List Char :=
  ((l.dropWhile isSpaceChar).reverse.dropWhile isSpaceChar).reverse

/-- Modelled from the spec: normalize a column name — trim surrounding
whitespace, then replace each internal space with the canonical separator,
an underscore. -/
def normalizeName (l : List Char) : List Char :=
  (trimName l).map (fun c => if c = ' ' then '_' else c)

/-- Modelled from the spec: a downstream field reference resolves when the
canonical name is among the normalized column names of the source file. -/
def resolvesColumn (cols : List (List Char)) (canonical : List Char) : Bool :=
  (cols.map normalizeName).contains canonical

theorem dropWhile_append_of_all {p : Char → Bool} :
    ∀ w l : List Char, (∀ c ∈ w, p c = true) →
      (w ++ l).dropWhile p = l.dropWhile p := by
  intro w
  induction w with
  | nil => intro l _; rfl
  | cons a w' ih =>
    intro l hw
    rw [List.cons_append, List.dropWhile_cons,
      if_pos (hw a (List.mem_cons_self a w'))]
    exact ih l (fun c hc => hw c (List.mem_cons_of_mem _ hc))

theorem dropWhile_eq_self_of_head (p : Char → Bool) (l : List Char)
    (h : ∀ c, l.head? = some c → p c = false) : l.dropWhile p = l := by
  cases l with
  | nil => rfl
  | cons a t =>
    rw [List.dropWhile_cons, if_neg (by simp [h a rfl])]

/-- C7 (modelled from the spec): normalization sends any column name that
differs from a space-free interior only by surrounding whitespace to that
interior with its internal spaces replaced by underscores; hence a
downstream reference to the canonical underscored name still resolves
against such a source file. -/
theorem loader_column_normalization (w1 body w2 : List Char)
    (cols : List (List Char))
    (hw1 : ∀ c ∈ w1, isSpaceChar c = true)
    (hw2 : ∀ c ∈ w2, isSpaceChar c = true)
    (hb1 : ∀ c, body.head? = some c → isSpaceChar c = false)
    (hb2 : ∀ c, body.getLast? = some c → isSpaceChar c = false)
    (hmem : (w1 ++ body ++ w2) ∈ cols) :
    normalizeName (w1 ++ body ++ w2)
        = body.map (fun c => if c = ' ' then '_' else c) ∧
    resolvesColumn cols (body.map (fun c => if c = ' ' then '_' else c)) = true := by
  have htrim : trimName (w1 ++ body ++ w2) = body := by
    unfold trimName
    rw [List.append_assoc, dropWhile_append_of_all w1 (body ++ w2) hw1]
    cases body with
    | nil =>
      rw [List.nil_append]
      have h2 : w2.dropWhile isSpaceChar = [] := by
        simpa using dropWhile_append_of_all w2 [] hw2
      rw [h2]
      rfl
    | cons b bt =>
      have hb : isSpaceChar b = false := hb1 b rfl
      rw [List.cons_append, List.dropWhile_cons, if_neg (by simp [hb]),
        ← List.cons_append, List.reverse_append,
        dropWhile_append_of_all w2.reverse _
          (fun c hc => hw2 c (List.mem_reverse.mp hc)),
        dropWhile_eq_self_of_head _ _
          (fun c hc => hb2 c (by rwa [← List.head?_reverse])),
        List.reverse_reverse]
  have hnorm : normalizeName (w1 ++ body ++ w2)
      = body.map (fun c => if c = ' ' then '_' else c) := by
    unfold normalizeName
    rw [htrim]
  refine ⟨hnorm, ?_⟩
  have hmem2 : body.map (fun c => if c = ' ' then '_' else c)
      ∈ cols.map normalizeName :=
    List.mem_map.mpr ⟨w1 ++ body ++ w2, hmem, hnorm⟩
  unfold resolvesColumn
  exact List.elem_iff.mpr hmem2

/-- A raw header row whose names carry stray whitespace. -/
def demoCols : List (List Char) :=
  [(" Vessel Type ").toList, ("Date").toList, ("\tCargo_Loss").toList]

/-- Witness for C7: the padded name Vessel Type normalizes to Vessel_Type,
which resolves against the demonstration header. -/
theorem loader_column_normalization_witness :
    normalizeName ((" Vessel Type ").toList) = ("Vessel_Type").toList ∧
    resolvesColumn demoCols (("Vessel_Type").toList) = true := by
  have h := loader_column_normalization [' '] (("Vessel Type").toList) [' ']
    demoCols (by decide) (by decide) (by decide) (by decide) (by decide)
  exact ⟨h.1, by
    have h2 := h.2
    have hmap : (("Vessel Type").toList).map (fun c => if c = ' ' then '_' else c)
        = ("Vessel_Type").toList := by decide
    rwa [hmap] at h2⟩

end Nautilus
